import Mathlib

/-!
Verification of the ai_stock_backend pipeline against its specification.

The Python sources are shallowly embedded over `ℚ`:
prices and volumes become rationals, pandas series become `List ℚ`,
dataframes of OHLCV bars become `List Bar`, and fallible functions
return `Option`.  The only non-rational operation in the sources,
`pandas.Series.std` (a square root), is abstracted by an explicit
function parameter `sqrtA : ℚ → ℚ`; no proved property depends on its
value.
-/

namespace StockBackend

/-- One daily OHLCV bar (src/db.py table `stock_daily`; `open` is a Lean
keyword, hence `open_`). -/
structure Bar where
  open_ : ℚ
  high : ℚ
  low : ℚ
  close : ℚ
  volume : ℚ
  deriving DecidableEq, Inhabited, Repr

/-- Row validity used by every cleaning step in the fetch layer:
`0.1 < close < 1000` and `volume ≥ 0`. -/
def validBar (b : Bar) : Prop := 1/10 < b.close ∧ b.close < 1000 ∧ 0 ≤ b.volume

instance : DecidablePred validBar := fun b => by unfold validBar; infer_instance

/-- `xs.mean()` of pandas, over a rational series. -/
def seriesMean (xs : List ℚ) : ℚ := xs.sum / xs.length

/-- `xs.tail(n)` of pandas: the last `n` entries. -/
def lastN (n : ℕ) (xs : List ℚ) : List ℚ := xs.drop (xs.length - n)

/-- `xs.iloc[-k]`: the `k`-th entry from the end. -/
def ilocNeg (k : ℕ) (xs : List ℚ) : ℚ := xs.getD (xs.length - k) 0

/-- `xs.diff()` with the leading NaN dropped: consecutive differences. -/
def seriesDiff (xs : List ℚ) : List ℚ := List.zipWith (fun a b => b - a) xs xs.tail

/-- Sample variance with `ddof = 1`, i.e. the square of `pandas.Series.std`. -/
def sampleVar (xs : List ℚ) : ℚ :=
  ((xs.map (fun x => (x - seriesMean xs) ^ 2)).sum) / ((xs.length - 1 : ℕ) : ℚ)

/-- Final value of `close.ewm(span, adjust=False).mean()` where
`α = 2 / (span + 1)`. -/
def emaAdjFalse (α : ℚ) : List ℚ → ℚ
  | [] => 0
  | x :: rest => rest.foldl (fun acc y => (1 - α) * acc + α * y) x

/-- Accumulators for the `adjust=True` exponentially weighted mean. -/
def emaAdjTrueAux (α : ℚ) : List ℚ → ℚ → ℚ → List ℚ
  | [], _, _ => []
  | x :: rest, num, den =>
    let num2 := (1 - α) * num + x
    let den2 := (1 - α) * den + 1
    num2 / den2 :: emaAdjTrueAux α rest num2 den2

/-- The series `close.ewm(span).mean()` (pandas default `adjust=True`). -/
def emaAdjTrue (α : ℚ) (xs : List ℚ) : List ℚ := emaAdjTrueAux α xs 0 0

/-- Mean gain of the last 14 close differences
(`delta.where(delta > 0, 0).mean()` in src/predict.py). -/
def rsiGain (close : List ℚ) : ℚ :=
  seriesMean ((lastN 14 (seriesDiff close)).map (fun d => if 0 < d then d else 0))

/-- Mean loss of the last 14 close differences
(`(-delta.where(delta < 0, 0)).mean()` in src/predict.py). -/
def rsiLoss (close : List ℚ) : ℚ :=
  seriesMean ((lastN 14 (seriesDiff close)).map (fun d => if d < 0 then -d else 0))

/-- The `rsi_14` block of `calc_features_safe` (src/predict.py lines 112-119):
`rs = gain / loss if loss != 0 else 0`;
`rsi = 100 - 100 / (1 + rs) if rs != 0 else 50`. -/
def rsi14 (close : List ℚ) : ℚ :=
  if 15 ≤ close.length then
    let gain := rsiGain close
    let loss := rsiLoss close
    let rs := if loss ≠ 0 then gain / loss else 0
    if rs ≠ 0 then 100 - 100 / (1 + rs) else 50
  else 50

/-- The fixed-width feature vector built by `calc_features_safe`
(src/predict.py lines 91-151).  Integer-valued flags are kept as the
rationals 0 / 1, exactly as `int(...)` produces them. -/
structure FeatureVector where
  mom_5 : ℚ
  mom_20 : ℚ
  ma5 : ℚ
  ma20 : ℚ
  ma60 : ℚ
  ma_align : ℚ
  price_to_ma20 : ℚ
  rsi_14 : ℚ
  macd_dif : ℚ
  macd_dea : ℚ
  macd_hist : ℚ
  macd_bullish : ℚ
  vol_ratio_5 : ℚ
  bb_width : ℚ
  bb_position : ℚ
  price_above_bb_upper : ℚ
  price_below_bb_lower : ℚ
  deriving DecidableEq, Repr

/-- Body of `calc_features_safe` once the 60-row guard has passed,
field by field from src/predict.py lines 94-151.  `sqrtA` stands for the
square root inside `pandas.Series.std`. -/
def featuresOf (sqrtA : ℚ → ℚ) (close volume : List ℚ) : FeatureVector :=
  let ma5 := seriesMean (lastN 5 close)
  let ma20 := seriesMean (lastN 20 close)
  let ma60 := if 60 ≤ close.length then seriesMean (lastN 60 close) else ma20
  let macd :=
    if 26 ≤ close.length then
      let ema12 := emaAdjFalse (2/13) close
      let ema26 := emaAdjFalse (2/27) close
      let dif := ema12 - ema26
      let difSeries := List.zipWith (fun a b => a - b) (emaAdjTrue (2/13) close) (emaAdjTrue (2/27) close)
      let dea := seriesMean (lastN 9 difSeries)
      let hist := (dif - dea) * 2
      (dif, dea, hist, if 0 < hist then (1 : ℚ) else 0)
    else (0, 0, 0, 0)
  let vol_ma5 := seriesMean (lastN 5 volume)
  let bb :=
    if 20 ≤ close.length then
      let bb_ma := seriesMean (lastN 20 close)
      let bb_std := sqrtA (sampleVar (lastN 20 close))
      let bb_upper := bb_ma + 2 * bb_std
      let bb_lower := bb_ma - 2 * bb_std
      let price := ilocNeg 1 close
      ((bb_upper - bb_lower) / bb_ma,
        if bb_upper ≠ bb_lower then (price - bb_lower) / (bb_upper - bb_lower) else 1/2,
        if bb_upper < price then (1 : ℚ) else 0,
        if price < bb_lower then (1 : ℚ) else 0)
    else (0, 1/2, 0, 0)
  { mom_5 := if 6 ≤ close.length then ilocNeg 1 close / ilocNeg 6 close - 1 else 0
    mom_20 := if 21 ≤ close.length then ilocNeg 1 close / ilocNeg 21 close - 1 else 0
    ma5 := ma5
    ma20 := ma20
    ma60 := ma60
    ma_align := if ma20 < ma5 ∧ ma60 < ma20 then 1 else 0
    price_to_ma20 := (ilocNeg 1 close - ma20) / ma20
    rsi_14 := rsi14 close
    macd_dif := macd.1
    macd_dea := macd.2.1
    macd_hist := macd.2.2.1
    macd_bullish := macd.2.2.2
    vol_ratio_5 := if vol_ma5 ≠ 0 then ilocNeg 1 volume / vol_ma5 else 1
    bb_width := bb.1
    bb_position := bb.2.1
    price_above_bb_upper := bb.2.2.1
    price_below_bb_lower := bb.2.2.2 }

/-- `calc_features_safe(df_slice)` (src/predict.py lines 91-151, duplicated
verbatim in src/utils.py lines 613-672): `None` below 60 rows, otherwise
the full feature vector. -/
def calc_features_safe (sqrtA : ℚ → ℚ) (df_slice : List Bar) : Option FeatureVector :=
  if df_slice.length < 60 then none
  else some (featuresOf sqrtA (df_slice.map Bar.close) (df_slice.map Bar.volume))

/-! ## Walk-forward trainer (src/predict.py `predict_signal`) -/

/-- The slice `df.index[-(train_window + 1):-1]` of src/predict.py line 177:
the trailing `w` positions excluding the very last bar, for a frame of
`n` bars with `n ≥ w + 1`. -/
def trainIdxList (n w : ℕ) : List ℕ := List.range' (n - (w + 1)) w

/-- One iteration of the training loop (src/predict.py lines 184-195): skip
when day `idx` has no following bar, compute features on the bars up to and
including `idx`, and label by the sign of the next-day return. -/
def dayExample (sqrtA : ℚ → ℚ) (df : List Bar) (idx : ℕ) : Option (FeatureVector × ℕ) :=
  if df.length ≤ idx + 1 then none
  else
    match calc_features_safe sqrtA (df.take (idx + 1)) with
    | none => none
    | some feat =>
      let c0 := (df.getD idx default).close
      let c1 := (df.getD (idx + 1) default).close
      some (feat, if 0 < (c1 - c0) / c0 then 1 else 0)

/-- The labeled training set `(X_train, y_train)` built by `predict_signal`. -/
def trainSet (sqrtA : ℚ → ℚ) (df : List Bar) (w : ℕ) : List (FeatureVector × ℕ) :=
  (trainIdxList df.length w).filterMap (dayExample sqrtA df)

/-- The data-preparation prefix of `predict_signal` (src/predict.py lines
162-195): abstain when fewer than `train_window + 1` bars are available,
otherwise build the training set. -/
def predict_train (sqrtA : ℚ → ℚ) (df : List Bar) (w : ℕ) : Option (List (FeatureVector × ℕ)) :=
  if df.length < w + 1 then none else some (trainSet sqrtA df w)

/-- The four signal states of src/predict.py lines 239-247.  `watch` is the
initial value `"⚪ 观望"`, `enter` = `"🟢 建仓"`, `hold` = `"🟡 持有"`,
`reduce_` = `"🔴 减仓"`. -/
inductive Signal where
  | watch
  | enter
  | hold
  | reduce_
  deriving DecidableEq, Repr

/-- The signal classification chain of `predict_signal` (src/predict.py
lines 239-247), a pure function of the five inputs. -/
def signal_of (prob rsi : ℚ) (price_above_bb mom_weakening : Bool) (drawdown_5d : ℚ) : Signal :=
  if 6/10 < prob ∧ rsi < 70 ∧ price_above_bb = false ∧ mom_weakening = false then .enter
  else if 55/100 < prob ∧ rsi < 75 then .hold
  else if prob < 5/10 ∨ 75 < rsi ∨ (price_above_bb = true ∧ mom_weakening = true) ∨ 8/100 < drawdown_5d then .reduce_
  else .hold

/-! ## Trading calendar (src/trade_calendar.py) -/

/-- Largest cached trading date, the loop bound `trade_dates[-1]`. -/
def lastDateOf (cal : List ℕ) : ℕ := cal.foldl max 0

/-- Smallest cached trading date, the loop bound `trade_dates[0]`. -/
def firstDateOf (cal : List ℕ) : ℕ := cal.foldl min (cal.headD 0)

/-- The forward scanning loop of `get_next_trading_day` (src/trade_calendar.py
lines 192-203): step one day at a time, counting hits in the calendar, with
explicit fuel standing for the `result <= trade_dates[-1]` bound. -/
def nextScan (cal : List ℕ) (count : ℕ) : ℕ → ℕ → ℕ → Option ℕ
  | _, _, 0 => none
  | result, foundCount, fuel + 1 =>
    let r := result + 1
    if r ∈ cal then
      if foundCount + 1 = count then some r else nextScan cal count r (foundCount + 1) fuel
    else nextScan cal count r foundCount fuel

/-- `get_next_trading_day(date, count)` over a cached calendar of dates
(src/trade_calendar.py lines 170-203). -/
def get_next_trading_day (cal : List ℕ) (d : ℕ) (count : ℕ) : Option ℕ :=
  if cal = [] then none else nextScan cal count d 0 (lastDateOf cal - d)

/-- The backward scanning loop of `get_previous_trading_day`
(src/trade_calendar.py lines 228-239), with fuel standing for the
`result >= trade_dates[0]` bound. -/
def prevScan (cal : List ℕ) (count : ℕ) : ℕ → ℕ → ℕ → Option ℕ
  | _, _, 0 => none
  | result, foundCount, fuel + 1 =>
    let r := result - 1
    if r ∈ cal then
      if foundCount + 1 = count then some r else prevScan cal count r (foundCount + 1) fuel
    else prevScan cal count r foundCount fuel

/-- `get_previous_trading_day(date, count)` over a cached calendar
(src/trade_calendar.py lines 206-239). -/
def get_previous_trading_day (cal : List ℕ) (d : ℕ) (count : ℕ) : Option ℕ :=
  if cal = [] then none else prevScan cal count d 0 (d - firstDateOf cal)

/-! ## Completeness check (src/db.py `check_data_completeness`) -/

/-- `check_data_completeness(symbol, required_days, as_of_date)`
(src/db.py lines 354-421) as a pure function of the queried
`(MAX(date), MAX(update_time))` row, the current trading day, and the
reference timestamp.  Dates and timestamps are day / second counts.
`required_days` is accepted and, as in the source, never read. -/
def check_data_completeness (latestRow : Option (ℕ × ℕ)) (currentTradingDay : ℕ)
    (required_days : ℕ) (as_of_date : Option ℕ) : Bool :=
  match latestRow with
  | none => false
  | some (latestDate, latestUpdate) =>
    if latestDate ≠ currentTradingDay then false
    else
      match as_of_date with
      | some t => decide (t < latestUpdate)
      | none => false

/-! ## Single-symbol backtest win rate (src/backtest.py lines 242-247) -/

inductive TradeAction where
  | buy
  | sell
  deriving DecidableEq, Repr

/-- One entry of the `trades` log built by `backtest_ai_strategy`
(src/backtest.py lines 187-206). -/
structure Trade where
  date : ℕ
  action : TradeAction
  price : ℚ
  shares : ℚ
  capital : ℚ
  total_value : ℚ
  deriving DecidableEq, Repr

/-- `winning_trades` (src/backtest.py line 244): sell trades whose recorded
portfolio value exceeds the initial capital. -/
def winning_trades (trades : List Trade) (initial_capital : ℚ) : List Trade :=
  trades.filter (fun t => decide (t.action = TradeAction.sell ∧ initial_capital < t.total_value))

/-- The sell trades of a trade log. -/
def sell_trades (trades : List Trade) : List Trade :=
  trades.filter (fun t => decide (t.action = TradeAction.sell))

/-- The win-rate computation of `backtest_ai_strategy`
(src/backtest.py lines 243-247). -/
def win_rate_pct (trades : List Trade) (initial_capital : ℚ) : ℚ :=
  if trades.isEmpty then 0
  else
    if 0 < trades.length then
      ((winning_trades trades initial_capital).length : ℚ) / (trades.length : ℚ) * 100
    else 0

/-! ## Cross-sectional scan backtest (src/utils.py `backtest_ai_strategy_cached`) -/

/-- The per-candidate probability of the scan backtest (src/utils.py lines
1014-1021): when the features of the data up to the evaluation date exist,
the probability is the literal constant `0.52` from line 1021
(`prob = 0.52  # 简化：实际应训练模型预测`). -/
def scan_prob_of (sqrtA : ℚ → ℚ) (df_upto_t0 : List Bar) : Option ℚ :=
  match calc_features_safe sqrtA df_upto_t0 with
  | none => none
  | some _ => some (52/100)

/-- The `min_prob` filter and signal entry of src/utils.py lines 1022-1024:
a candidate enters the ranked `signals` list iff its probability reaches
`min_prob / 100`. -/
def scan_signal_entry (sqrtA : ℚ → ℚ) (min_prob : ℚ) (df_upto_t0 : List Bar) (ret : ℚ) :
    Option (ℚ × ℚ) :=
  match scan_prob_of sqrtA df_upto_t0 with
  | none => none
  | some prob => if min_prob / 100 ≤ prob then some (prob, ret) else none

/-- Final NAV of the scan backtest: `nav = 1.0` compounded through
`nav *= (1 + daily_ret)` (src/utils.py lines 1002, 1031). -/
def navOf (daily_rets : List ℚ) : ℚ := daily_rets.foldl (fun nav r => nav * (1 + r)) 1

/-- Running maximum, `pandas.Series.cummax`, after the first element. -/
def cummaxAux : ℚ → List ℚ → List ℚ
  | _, [] => []
  | m, x :: rest =>
    let m2 := max m x
    m2 :: cummaxAux m2 rest

/-- `pandas.Series.cummax` over a rational series. -/
def cummaxList : List ℚ → List ℚ
  | [] => []
  | x :: rest => x :: cummaxAux x rest

/-- `pandas.Series.max` over a rational series (0 on the empty series,
which the source never reaches). -/
def seriesMax : List ℚ → ℚ
  | [] => 0
  | x :: rest => rest.foldl max x

/-- The max-drawdown computation of the scan backtest (src/utils.py lines
1039-1040): `pd.Series(nav)` wraps the scalar final NAV into a one-element
series, then `mdd = ((cummax - series) / cummax).max()`. -/
def scan_max_drawdown (nav : ℚ) : ℚ :=
  let series : List ℚ := [nav]
  seriesMax (List.zipWith (fun c v => (c - v) / c) (cummaxList series) series)

/-! ## Data acquisition (src/data_fetch.py and src/utils.py `get_stock_daily`)

Each provider attempt is summarized by `Option (List Bar)`: `none` for an
exception, an empty response, or a failed session, `some raw` for a raw
row set that still has to be cleaned.  The result of a fetch is the pair
(series returned to the caller, list of series upserted into the store). -/

/-- The cleaning filter applied to every provider response
(`0.1 < close < 1000`, `volume ≥ 0`). -/
def cleanBars (df : List Bar) : List Bar := df.filter (fun b => decide (validBar b))

/-- The AkShare retry loop common to both copies (src/data_fetch.py lines
227-277, src/utils.py lines 485-535): first attempt whose cleaned series
has at least 100 rows wins and is returned. -/
def akScan : List (Option (List Bar)) → Option (List Bar)
  | [] => none
  | none :: rest => akScan rest
  | some raw :: rest =>
    let c := cleanBars raw
    if 100 ≤ c.length then some c else akScan rest

/-- The Baostock retry loop of src/data_fetch.py lines 280-356: identical
cleaning, the first attempt with at least 100 cleaned rows is returned. -/
def bsScan : List (Option (List Bar)) → Option (List Bar)
  | [] => none
  | none :: rest => bsScan rest
  | some raw :: rest =>
    let c := cleanBars raw
    if 100 ≤ c.length then some c else bsScan rest

/-- The Baostock retry loop of src/utils.py lines 538-607: a successful
attempt is upserted (line 598) but the loop body has no `return`, so the
loop keeps retrying and every success is upserted again. -/
def bsScanUtils : List (Option (List Bar)) → List (List Bar)
  | [] => []
  | none :: rest => bsScanUtils rest
  | some raw :: rest =>
    let c := cleanBars raw
    if 100 ≤ c.length then c :: bsScanUtils rest else bsScanUtils rest

/-- The provider-fallback section of src/data_fetch.py `get_stock_daily`
(lines 212-357), entered when the Bar Store is not complete: AkShare with
retries, then Baostock, each success upserted and returned; an empty frame
when both are exhausted. -/
def data_fetch_providers (ak bs : List (Option (List Bar))) : List Bar × List (List Bar) :=
  match akScan ak with
  | some c => (c, [c])
  | none =>
    match bsScan bs with
    | some c => (c, [c])
    | none => ([], [])

/-- The provider-fallback section of src/utils.py `get_stock_daily`
(lines 470-608): AkShare successes are upserted and returned, Baostock
successes are upserted but never returned, and the function falls through
to `return pd.DataFrame()` (line 608). -/
def utils_providers (ak bs : List (Option (List Bar))) : List Bar × List (List Bar) :=
  match akScan ak with
  | some c => (c, [c])
  | none => ([], bsScanUtils bs)

/-! ## Concrete data used by witnesses and counterexamples -/

/-- A flat 60-bar window, close 100, volume 1000; every row valid. -/
def exBarsA : List Bar := List.replicate 60 ⟨100, 100, 100, 100, 1000⟩

/-- A flat 60-bar window with a different price history (close 50). -/
def exBarsB : List Bar := List.replicate 60 ⟨50, 50, 50, 50, 1000⟩

/-- A 100-row valid provider response. -/
def goodRaw : List Bar := List.replicate 100 ⟨10, 10, 10, 10, 100⟩

/-- A 15-row close series falling by 1 each day: all of its last 14 close
differences are `-1`, so the mean gain is 0 and the mean loss is 1. -/
def rsiCloses15 : List ℚ :=
  [100, 99, 98, 97, 96, 95, 94, 93, 92, 91, 90, 89, 88, 87, 86]

/-- A 16-row close series alternating 100 and 101: its last 14 close
differences contain both gains and losses, so neither mean is 0. -/
def rsiCloses16 : List ℚ :=
  [100, 101, 100, 101, 100, 101, 100, 101, 100, 101, 100, 101, 100, 101, 100, 101]

/-- A two-entry trade log: one buy, then one winning sell
(portfolio value 119701 > initial capital 100000). -/
def exTrades : List Trade :=
  [⟨1, TradeAction.buy, 10, 9900, 901, 99901⟩,
   ⟨2, TradeAction.sell, 12, 9900, 119701, 119701⟩]

/-! ## Generic helper lemmas -/

theorem filter_replicate_bar (p : Bar → Bool) (n : ℕ) (a : Bar) :
    (List.replicate n a).filter p = if p a then List.replicate n a else [] := by
  induction n with
  | zero => simp
  | succ k ih =>
    rw [List.replicate_succ, List.filter_cons, ih]
    by_cases h : p a <;> simp [h, List.replicate_succ]

/-! ## Claim theorems -/

/-- C1: the cross-sectional scan backtest does not use genuine per-date
probabilities.  On every candidate with computable features the probability
fed to the `min_prob` filter and top-k selection is the fixed placeholder
`0.52` (src/utils.py line 1021); two universes that differ only in their
historical price data receive identical probabilities, contradicting the
spec's mandate that the §4.5 trainer run in-loop. -/
theorem scan_prob_is_constant_placeholder :
    scan_prob_of (fun _ => 0) exBarsA = some (52/100) ∧
    scan_prob_of (fun _ => 0) exBarsB = some (52/100) ∧
    exBarsA ≠ exBarsB ∧
    scan_signal_entry (fun _ => 0) 50 exBarsA (3/100) = some (52/100, 3/100) ∧
    scan_signal_entry (fun _ => 0) 50 exBarsB (-(2/100)) = some (52/100, -(2/100)) := by
  have hA : scan_prob_of (fun _ => 0) exBarsA = some (52/100) := rfl
  have hB : scan_prob_of (fun _ => 0) exBarsB = some (52/100) := rfl
  refine ⟨hA, hB, ?_, ?_, ?_⟩
  · intro h
    have hc := congrArg (fun l => (l.headD default).close) h
    simp [exBarsA, exBarsB, List.replicate_succ] at hc
  · simp only [scan_signal_entry, hA]
    rw [if_pos (by norm_num)]
  · simp only [scan_signal_entry, hB]
    rw [if_pos (by norm_num)]

/-- C3: the trading signal is a pure function of
`(p, rsi, priceAboveBB, momWeakening, drawdown5d)` given by the priority
chain of src/predict.py lines 239-247, and the three sample points of the
spec evaluate to enter, reduce and hold. -/
theorem predict_signal_chain (p rsi : ℚ) (bb mom : Bool) (dd : ℚ) :
    (signal_of p rsi bb mom dd = Signal.enter ↔
      (6/10 < p ∧ rsi < 70 ∧ bb = false ∧ mom = false)) ∧
    (signal_of p rsi bb mom dd = Signal.reduce_ ↔
      (¬(6/10 < p ∧ rsi < 70 ∧ bb = false ∧ mom = false) ∧
        ¬(55/100 < p ∧ rsi < 75) ∧
        (p < 5/10 ∨ 75 < rsi ∨ (bb = true ∧ mom = true) ∨ 8/100 < dd))) ∧
    (signal_of p rsi bb mom dd = Signal.hold ↔
      (¬(6/10 < p ∧ rsi < 70 ∧ bb = false ∧ mom = false) ∧
        ((55/100 < p ∧ rsi < 75) ∨
          (¬(55/100 < p ∧ rsi < 75) ∧
            ¬(p < 5/10 ∨ 75 < rsi ∨ (bb = true ∧ mom = true) ∨ 8/100 < dd))))) ∧
    signal_of p rsi bb mom dd ≠ Signal.watch ∧
    signal_of (65/100) 50 false false (2/100) = Signal.enter ∧
    signal_of (45/100) 80 bb mom dd = Signal.reduce_ ∧
    signal_of (57/100) 60 bb mom (1/100) = Signal.hold := by
  refine ⟨?_, ?_, ?_, ?_,
    by rw [signal_of, if_pos ⟨by norm_num, by norm_num, rfl, rfl⟩], ?_, ?_⟩
  · unfold signal_of; split_ifs with h1 h2 h3 <;> simp_all
  · unfold signal_of; split_ifs with h1 h2 h3 <;> simp_all
  · unfold signal_of; split_ifs with h1 h2 h3 <;> simp_all
  · unfold signal_of; split_ifs <;> simp
  · have e1 : ¬(6/10 < (45/100 : ℚ) ∧ (80 : ℚ) < 70 ∧ bb = false ∧ mom = false) := by
      rintro ⟨h, -⟩; norm_num at h
    have e2 : ¬(55/100 < (45/100 : ℚ) ∧ (80 : ℚ) < 75) := by
      rintro ⟨h, -⟩; norm_num at h
    have e3 : (45/100 : ℚ) < 5/10 ∨ (75 : ℚ) < 80 ∨ (bb = true ∧ mom = true) ∨ (8/100 : ℚ) < dd :=
      Or.inl (by norm_num)
    rw [signal_of, if_neg e1, if_neg e2, if_pos e3]
  · have e1 : ¬(6/10 < (57/100 : ℚ) ∧ (60 : ℚ) < 70 ∧ bb = false ∧ mom = false) := by
      rintro ⟨h, -⟩; norm_num at h
    have e2 : 55/100 < (57/100 : ℚ) ∧ (60 : ℚ) < 75 := by norm_num
    rw [signal_of, if_neg e1, if_pos e2]

/-- C4: the completeness check returns `false` whenever the latest stored
bar date differs from the current trading day, and returns `true` only
when that date matches and the latest update timestamp is strictly after
the reference timestamp (src/db.py lines 354-421). -/
theorem check_data_completeness_spec (row : Option (ℕ × ℕ)) (cur req : ℕ) (asOf : Option ℕ) :
    (row.map Prod.fst ≠ some cur →
      check_data_completeness row cur req asOf = false) ∧
    (check_data_completeness row cur req asOf = true →
      ∃ d u t, row = some (d, u) ∧ d = cur ∧ asOf = some t ∧ t < u) := by
  match row with
  | none => exact ⟨fun _ => rfl, by simp [check_data_completeness]⟩
  | some (d, u) =>
    constructor
    · intro h
      have hd : d ≠ cur := by simpa using h
      simp [check_data_completeness, hd]
    · intro h
      by_cases hd : d = cur
      · cases asOf with
        | none => simp [check_data_completeness, hd] at h
        | some t =>
          refine ⟨d, u, t, rfl, hd, rfl, ?_⟩
          subst hd
          simpa [check_data_completeness] using h
      · simp [check_data_completeness, hd] at h

/-- Witness for C4 at concrete inputs: a stale latest date is rejected, and
a passing check exposes the required date match and timestamp ordering. -/
theorem check_data_completeness_spec_witness :
    check_data_completeness (some (5, 100)) 6 365 (some 3) = false ∧
    (∃ d u t, (some ((6 : ℕ), (100 : ℕ))) = some (d, u) ∧ d = 6 ∧
      (some (3 : ℕ)) = some t ∧ t < u) :=
  ⟨(check_data_completeness_spec (some (5, 100)) 6 365 (some 3)).1 (by decide),
   (check_data_completeness_spec (some (6, 100)) 6 365 (some 3)).2 (by decide)⟩

/-- C5 counterexample: on a log of one buy and one winning sell with
initial capital 100000, the code reports a win rate of 50 (dividing by all
trades, src/backtest.py line 245), while dividing by sell trades as the
claim states would give 100. -/
theorem win_rate_counterexample :
    win_rate_pct exTrades 100000 = 50 ∧
    ((winning_trades exTrades 100000).length : ℚ) /
      ((sell_trades exTrades).length : ℚ) * 100 = 100 ∧
    (50 : ℚ) ≠ 100 := by
  have hwin : winning_trades exTrades 100000 =
      [⟨2, TradeAction.sell, 12, 9900, 119701, 119701⟩] := by
    simp only [winning_trades, exTrades, List.filter_cons, List.filter_nil]
    norm_num
  have hsell : sell_trades exTrades =
      [⟨2, TradeAction.sell, 12, 9900, 119701, 119701⟩] := by
    simp only [sell_trades, exTrades, List.filter_cons, List.filter_nil]
    simp
  refine ⟨?_, ?_, by norm_num⟩
  · rw [win_rate_pct, if_neg (by simp [exTrades]), if_pos (by simp [exTrades]), hwin]
    simp [exTrades]
    norm_num
  · rw [hwin, hsell]
    norm_num

/-- C5 amended: for every run recording at least one trade, the reported
win rate equals the number of winning sell trades divided by the total
number of trades (buys included), times 100; with no trades it is 0. -/
theorem win_rate_over_all_trades (trades : List Trade) (initial_capital : ℚ)
    (h : trades ≠ []) :
    win_rate_pct trades initial_capital =
      ((winning_trades trades initial_capital).length : ℚ) / (trades.length : ℚ) * 100 ∧
    win_rate_pct [] initial_capital = 0 := by
  constructor
  · unfold win_rate_pct
    rw [if_neg (by simpa using h), if_pos (List.length_pos.mpr h)]
  · rfl

/-- Witness for C5's amended statement on the concrete two-trade log. -/
theorem win_rate_over_all_trades_witness :
    win_rate_pct exTrades 100000 =
      ((winning_trades exTrades 100000).length : ℚ) / (exTrades.length : ℚ) * 100 ∧
    win_rate_pct [] 100000 = 0 :=
  win_rate_over_all_trades exTrades 100000 (by simp [exTrades])

/-- C6: the scan backtest's reported max drawdown is always exactly 0,
because it is computed over the one-element series containing only the
final NAV (src/utils.py lines 1039-1040); the daily-return series is
irrelevant.  The hypothesis excludes a zero final NAV (a NaN in the
floating-point original). -/
theorem scan_max_drawdown_always_zero (daily_rets : List ℚ)
    (h : navOf daily_rets ≠ 0) :
    scan_max_drawdown (navOf daily_rets) = 0 := by
  unfold scan_max_drawdown cummaxList cummaxAux seriesMax
  simp

/-- Witness for C6: a return series with a genuine 20% intermediate loss
still reports a drawdown of 0. -/
theorem scan_max_drawdown_always_zero_witness :
    scan_max_drawdown (navOf [1/10, -(2/10)]) = 0 :=
  scan_max_drawdown_always_zero [1/10, -(2/10)] (by norm_num [navOf])

/-- C7: in src/data_fetch.py a secondary-provider series of 100 valid rows
is upserted and returned, and exhaustion of both providers yields an empty
result; but in the src/utils.py copy the same secondary success is
upserted while the caller still receives an empty frame — the claimed
"same series is returned" fails there. -/
theorem fetch_fallback_return_behavior :
    data_fetch_providers [none, none, none] [some goodRaw, none, none] = (goodRaw, [goodRaw]) ∧
    utils_providers [none, none, none] [some goodRaw, none, none] = ([], [goodRaw]) ∧
    goodRaw.length = 100 ∧ cleanBars goodRaw = goodRaw ∧
    data_fetch_providers [none, none, none] [none, none, none] = ([], []) ∧
    utils_providers [none, none, none] [none, none, none] = ([], []) := by
  have hclean : cleanBars goodRaw = goodRaw := by
    rw [goodRaw, cleanBars, filter_replicate_bar,
      if_pos (by norm_num [validBar])]
  have hlen : goodRaw.length = 100 := by simp [goodRaw]
  have hak : akScan [none, none, none] = none := rfl
  have hbs : bsScan [some goodRaw, none, none] = some goodRaw := by
    simp only [bsScan, hclean, hlen]
    norm_num
  have hbsu : bsScanUtils [some goodRaw, none, none] = [goodRaw] := by
    simp only [bsScanUtils, hclean, hlen]
    norm_num
  refine ⟨?_, ?_, hlen, hclean, rfl, rfl⟩
  · simp only [data_fetch_providers, hak, hbs]
  · simp only [utils_providers, hak, hbsu]

/-- The forward scan with `count = 1` returns the smallest calendar date
strictly after its start. -/
theorem nextScan_sound (cal : List ℕ) :
    ∀ fuel start n, nextScan cal 1 start 0 fuel = some n →
      n ∈ cal ∧ start < n ∧ ∀ m ∈ cal, start < m → n ≤ m := by
  intro fuel
  induction fuel with
  | zero => intro start n h; simp [nextScan] at h
  | succ f ih =>
    intro start n h
    simp only [nextScan] at h
    by_cases hmem : start + 1 ∈ cal
    · rw [if_pos hmem, if_true] at h
      obtain rfl : start + 1 = n := Option.some.inj h
      exact ⟨hmem, Nat.lt_succ_self start, fun m _ hlt => hlt⟩
    · rw [if_neg hmem] at h
      obtain ⟨h1, h2, h3⟩ := ih (start + 1) n h
      refine ⟨h1, by omega, fun m hm hlt => ?_⟩
      by_cases hmeq : m = start + 1
      · exact absurd (hmeq ▸ hm) hmem
      · exact h3 m hm (by omega)

/-- The backward scan with `count = 1` returns the largest calendar date
strictly before its start, provided the fuel does not wrap below zero. -/
theorem prevScan_sound (cal : List ℕ) :
    ∀ fuel start p, fuel ≤ start → prevScan cal 1 start 0 fuel = some p →
      p ∈ cal ∧ p < start ∧ ∀ m ∈ cal, m < start → m ≤ p := by
  intro fuel
  induction fuel with
  | zero => intro start p _ h; simp [prevScan] at h
  | succ f ih =>
    intro start p hfs h
    simp only [prevScan] at h
    by_cases hmem : start - 1 ∈ cal
    · rw [if_pos hmem, if_true] at h
      obtain rfl : start - 1 = p := Option.some.inj h
      exact ⟨hmem, by omega, fun m _ hlt => by omega⟩
    · rw [if_neg hmem] at h
      obtain ⟨h1, h2, h3⟩ := ih (start - 1) p (by omega) h
      refine ⟨h1, by omega, fun m hm hlt => ?_⟩
      by_cases hmeq : m = start - 1
      · exact absurd (hmeq ▸ hm) hmem
      · exact h3 m hm (by omega)

/-- C10: for a trading day `d` in the cached calendar, whenever
`get_next_trading_day` and the subsequent `get_previous_trading_day` both
land inside the cached horizon (neither returns `none`), the round trip
returns exactly `d` (src/trade_calendar.py lines 170-239). -/
theorem next_prev_trading_day_roundtrip (cal : List ℕ) (d n p : ℕ)
    (hd : d ∈ cal)
    (hnext : get_next_trading_day cal d 1 = some n)
    (hprev : get_previous_trading_day cal n 1 = some p) :
    p = d := by
  rw [get_next_trading_day] at hnext
  rw [get_previous_trading_day] at hprev
  by_cases hcal : cal = []
  · rw [if_pos hcal] at hnext
    exact absurd hnext (by simp)
  · rw [if_neg hcal] at hnext
    rw [if_neg hcal] at hprev
    obtain ⟨hnmem, hdn, hmin⟩ := nextScan_sound cal _ d n hnext
    obtain ⟨hpmem, hpn, hmax⟩ := prevScan_sound cal _ n p (Nat.sub_le _ _) hprev
    have h1 : d ≤ p := hmax d hd hdn
    by_cases hdp : d = p
    · exact hdp.symm
    · have h2 : d < p := lt_of_le_of_ne h1 hdp
      have h3 : n ≤ p := hmin p hpmem h2
      omega

/-- Witness for C10 on the concrete calendar `[5, 7, 10]`: the next trading
day after 5 is 7, the previous one before 7 is 5, and the round trip
closes. -/
theorem next_prev_trading_day_roundtrip_witness :
    get_next_trading_day [5, 7, 10] 5 1 = some 7 ∧
    get_previous_trading_day [5, 7, 10] 7 1 = some 5 ∧ (5 : ℕ) = 5 :=
  ⟨by decide, by decide,
    next_prev_trading_day_roundtrip [5, 7, 10] 5 7 5 (by decide) (by decide) (by decide)⟩

theorem getD_take_of_lt (xs : List Bar) (i n : ℕ) (d : Bar) (h : i < n) :
    (xs.take n).getD i d = xs.getD i d := by
  simp [List.getD_eq_getElem?_getD, List.getElem?_take_of_lt h]

/-- A concrete three-bar frame for witnesses. -/
def threeBars : List Bar := [⟨1, 1, 1, 1, 1⟩, ⟨2, 2, 2, 2, 2⟩, ⟨3, 3, 3, 3, 3⟩]

/-- C2: the walk-forward trainer has no look-ahead.  The training days are
exactly the trailing `w` indices excluding the very last bar; the training
set is built day by day from those indices; the example for day `idx`
depends only on the bars up to index `idx + 1` (features on the prefix up
to `idx`, label on closes at `idx` and `idx + 1`); and the label is 1
exactly when the close rises from `idx` to the immediately following bar
(src/predict.py lines 176-195). -/
theorem predict_train_no_lookahead (sqrtA : ℚ → ℚ) (df df2 : List Bar) (w idx : ℕ)
    (hw : w + 1 ≤ df.length) :
    (idx ∈ trainIdxList df.length w ↔
      df.length - (w + 1) ≤ idx ∧ idx + 1 < df.length) ∧
    predict_train sqrtA df w =
      some ((trainIdxList df.length w).filterMap (dayExample sqrtA df)) ∧
    (idx + 1 < df.length → idx + 1 < df2.length →
      df.take (idx + 2) = df2.take (idx + 2) →
      dayExample sqrtA df idx = dayExample sqrtA df2 idx) ∧
    (∀ f y, dayExample sqrtA df idx = some (f, y) →
      calc_features_safe sqrtA (df.take (idx + 1)) = some f ∧
      (0 < (df.getD idx default).close →
        (y = 1 ↔ (df.getD idx default).close < (df.getD (idx + 1) default).close))) := by
  refine ⟨?_, ?_, ?_, ?_⟩
  · rw [trainIdxList, List.mem_range'_1]
    omega
  · rw [predict_train, if_neg (by omega)]
    rfl
  · intro h1 h2 htake
    have hf : df.take (idx + 1) = df2.take (idx + 1) := by
      have hc := congrArg (List.take (idx + 1)) htake
      rw [List.take_take, List.take_take] at hc
      simpa [Nat.min_def] using hc
    have g0 : df.getD idx default = df2.getD idx default := by
      rw [← getD_take_of_lt df idx (idx + 2) default (by omega),
        ← getD_take_of_lt df2 idx (idx + 2) default (by omega), htake]
    have g1 : df.getD (idx + 1) default = df2.getD (idx + 1) default := by
      rw [← getD_take_of_lt df (idx + 1) (idx + 2) default (by omega),
        ← getD_take_of_lt df2 (idx + 1) (idx + 2) default (by omega), htake]
    simp only [dayExample]
    rw [if_neg (show ¬df.length ≤ idx + 1 by omega),
      if_neg (show ¬df2.length ≤ idx + 1 by omega), hf, g0, g1]
  · intro f y h
    by_cases hlen : df.length ≤ idx + 1
    · simp [dayExample, hlen] at h
    · simp only [dayExample] at h
      rw [if_neg hlen] at h
      cases hcf : calc_features_safe sqrtA (df.take (idx + 1)) with
      | none => rw [hcf] at h; simp at h
      | some feat =>
        rw [hcf] at h
        simp only [Option.some.injEq, Prod.mk.injEq] at h
        obtain ⟨hfeat, hlab⟩ := h
        refine ⟨congrArg some hfeat, ?_⟩
        intro hpos
        have hiff : 0 < ((df.getD (idx + 1) default).close - (df.getD idx default).close) /
            (df.getD idx default).close ↔
            (df.getD idx default).close < (df.getD (idx + 1) default).close := by
          rw [div_pos_iff]
          constructor
          · rintro (⟨ha, -⟩ | ⟨-, hb⟩)
            · linarith
            · linarith
          · intro hlt
            exact Or.inl ⟨by linarith, hpos⟩
        rw [← hlab]
        split_ifs with hcond
        · constructor
          · intro _; exact hiff.mp hcond
          · intro _; rfl
        · constructor
          · intro h0; simp at h0
          · intro hc; exact absurd (hiff.mpr hc) hcond

/-- Witness for C2 on a concrete three-bar frame with `train_window = 2`:
index 0 is a training day exactly because it lies in the trailing window
and has a following bar. -/
theorem predict_train_no_lookahead_witness :
    0 ∈ trainIdxList threeBars.length 2 ↔
      threeBars.length - (2 + 1) ≤ 0 ∧ 0 + 1 < threeBars.length :=
  (predict_train_no_lookahead (fun _ => 0) threeBars threeBars 2 0 (by decide)).1

theorem seriesMean_nonneg (xs : List ℚ) (hp : ∀ x ∈ xs, 0 ≤ x) : 0 ≤ seriesMean xs :=
  div_nonneg (List.sum_nonneg hp) (Nat.cast_nonneg _)

theorem seriesMean_pos (xs : List ℚ) (h0 : xs ≠ []) (hp : ∀ x ∈ xs, 0 < x) :
    0 < seriesMean xs := by
  refine div_pos (List.sum_pos xs hp h0) ?_
  exact_mod_cast List.length_pos.mpr h0

theorem lastN_length (n : ℕ) (xs : List ℚ) (h : n ≤ xs.length) : (lastN n xs).length = n := by
  simp [lastN]
  omega

theorem lastN_subset (n : ℕ) (xs : List ℚ) : ∀ x ∈ lastN n xs, x ∈ xs :=
  fun _ hx => List.drop_subset _ _ hx

theorem ilocNeg_mem (k : ℕ) (xs : List ℚ) (h1 : 1 ≤ k) (h2 : k ≤ xs.length) :
    ilocNeg k xs ∈ xs := by
  have hlt : xs.length - k < xs.length := by omega
  rw [ilocNeg, List.getD_eq_getElem xs 0 hlt]
  exact List.getElem_mem hlt

/-- Unfolding of the Bollinger-position field of `featuresOf`. -/
theorem featuresOf_bb_position (s : ℚ → ℚ) (c v : List ℚ) :
    (featuresOf s c v).bb_position =
      (if 20 ≤ c.length then
        ((seriesMean (lastN 20 c) + 2 * s (sampleVar (lastN 20 c)) -
            (seriesMean (lastN 20 c) - 2 * s (sampleVar (lastN 20 c)))) /
          seriesMean (lastN 20 c),
          if seriesMean (lastN 20 c) + 2 * s (sampleVar (lastN 20 c)) ≠
              seriesMean (lastN 20 c) - 2 * s (sampleVar (lastN 20 c)) then
            (ilocNeg 1 c - (seriesMean (lastN 20 c) - 2 * s (sampleVar (lastN 20 c)))) /
              (seriesMean (lastN 20 c) + 2 * s (sampleVar (lastN 20 c)) -
                (seriesMean (lastN 20 c) - 2 * s (sampleVar (lastN 20 c))))
          else 1/2,
          if seriesMean (lastN 20 c) + 2 * s (sampleVar (lastN 20 c)) < ilocNeg 1 c
            then (1 : ℚ) else 0,
          if ilocNeg 1 c < seriesMean (lastN 20 c) - 2 * s (sampleVar (lastN 20 c))
            then (1 : ℚ) else 0)
      else (0, 1/2, 0, 0)).2.1 := rfl

/-- C8: the feature function abstains below 60 rows; on any window of at
least 60 valid bars it returns a full vector, the unguarded division
denominators (`close[-6]`, `close[-21]`, `ma20`, `1 + rs`) are nonzero
under the validity precondition, and each guarded division falls back to
its documented neutral value (src/predict.py lines 91-151). -/
theorem calc_features_safe_total (sqrtA : ℚ → ℚ) (df : List Bar)
    (hvalid : ∀ b ∈ df, validBar b) :
    (df.length < 60 → calc_features_safe sqrtA df = none) ∧
    (60 ≤ df.length →
      ∃ v, calc_features_safe sqrtA df = some v ∧
        ilocNeg 6 (df.map Bar.close) ≠ 0 ∧
        ilocNeg 21 (df.map Bar.close) ≠ 0 ∧
        0 < seriesMean (lastN 20 (df.map Bar.close)) ∧
        0 ≤ rsiGain (df.map Bar.close) ∧
        0 ≤ rsiLoss (df.map Bar.close) ∧
        (rsiLoss (df.map Bar.close) ≠ 0 →
          0 < 1 + rsiGain (df.map Bar.close) / rsiLoss (df.map Bar.close)) ∧
        (rsiLoss (df.map Bar.close) = 0 → v.rsi_14 = 50) ∧
        (seriesMean (lastN 5 (df.map Bar.volume)) = 0 → v.vol_ratio_5 = 1) ∧
        (sqrtA (sampleVar (lastN 20 (df.map Bar.close))) = 0 → v.bb_position = 1/2)) := by
  constructor
  · intro hlt
    simp [calc_features_safe, hlt]
  · intro hge
    have hlenc : (df.map Bar.close).length = df.length := by simp
    have hlenv : (df.map Bar.volume).length = df.length := by simp
    have hposc : ∀ x ∈ df.map Bar.close, 0 < x := by
      intro x hx
      obtain ⟨b, hb, rfl⟩ := List.mem_map.mp hx
      have h1 := (hvalid b hb).1
      linarith
    have hgain : 0 ≤ rsiGain (df.map Bar.close) := by
      apply seriesMean_nonneg
      intro x hx
      obtain ⟨d, _, rfl⟩ := List.mem_map.mp hx
      split_ifs with h
      · linarith
      · exact le_refl 0
    have hloss : 0 ≤ rsiLoss (df.map Bar.close) := by
      apply seriesMean_nonneg
      intro x hx
      obtain ⟨d, _, rfl⟩ := List.mem_map.mp hx
      split_ifs with h
      · linarith
      · exact le_refl 0
    refine ⟨featuresOf sqrtA (df.map Bar.close) (df.map Bar.volume),
      ?_, ?_, ?_, ?_, hgain, hloss, ?_, ?_, ?_, ?_⟩
    · rw [calc_features_safe, if_neg (by omega)]
    · exact ne_of_gt (hposc _ (ilocNeg_mem 6 _ (by norm_num) (by rw [hlenc]; omega)))
    · exact ne_of_gt (hposc _ (ilocNeg_mem 21 _ (by norm_num) (by rw [hlenc]; omega)))
    · apply seriesMean_pos
      · have hl20 := lastN_length 20 (df.map Bar.close) (by rw [hlenc]; omega)
        intro hnil
        rw [hnil] at hl20
        simp at hl20
      · intro x hx
        exact hposc x (lastN_subset 20 _ x hx)
    · intro hL
      have hLpos : 0 < rsiLoss (df.map Bar.close) := lt_of_le_of_ne hloss (Ne.symm hL)
      have hdiv : 0 ≤ rsiGain (df.map Bar.close) / rsiLoss (df.map Bar.close) :=
        div_nonneg hgain (le_of_lt hLpos)
      linarith
    · intro hL
      show rsi14 (df.map Bar.close) = 50
      have h15 : 15 ≤ (df.map Bar.close).length := by rw [hlenc]; omega
      have hrs : (if rsiLoss (df.map Bar.close) ≠ 0 then
          rsiGain (df.map Bar.close) / rsiLoss (df.map Bar.close) else 0) = 0 :=
        if_neg (fun hne => hne hL)
      simp only [rsi14]
      rw [if_pos h15, hrs, if_neg (by simp)]
    · intro hv
      show (if seriesMean (lastN 5 (df.map Bar.volume)) ≠ 0 then
          ilocNeg 1 (df.map Bar.volume) / seriesMean (lastN 5 (df.map Bar.volume))
        else 1) = 1
      rw [if_neg (fun hne => hne hv)]
    · intro hs
      rw [featuresOf_bb_position,
        if_pos (show 20 ≤ (df.map Bar.close).length by rw [hlenc]; omega)]
      simp [hs]

/-- Witness for C8 on the concrete 60-bar valid window. -/
theorem calc_features_safe_total_witness :
    ∃ v, calc_features_safe (fun _ => 0) exBarsA = some v ∧
      ilocNeg 6 (exBarsA.map Bar.close) ≠ 0 ∧
      ilocNeg 21 (exBarsA.map Bar.close) ≠ 0 ∧
      0 < seriesMean (lastN 20 (exBarsA.map Bar.close)) ∧
      0 ≤ rsiGain (exBarsA.map Bar.close) ∧
      0 ≤ rsiLoss (exBarsA.map Bar.close) ∧
      (rsiLoss (exBarsA.map Bar.close) ≠ 0 →
        0 < 1 + rsiGain (exBarsA.map Bar.close) / rsiLoss (exBarsA.map Bar.close)) ∧
      (rsiLoss (exBarsA.map Bar.close) = 0 → v.rsi_14 = 50) ∧
      (seriesMean (lastN 5 (exBarsA.map Bar.volume)) = 0 → v.vol_ratio_5 = 1) ∧
      ((0 : ℚ) = 0 → v.bb_position = 1/2) :=
  (calc_features_safe_total (fun _ => 0) exBarsA
    (by
      intro b hb
      have hb2 : b = ⟨100, 100, 100, 100, 1000⟩ := List.eq_of_mem_replicate hb
      subst hb2
      refine ⟨by norm_num, by norm_num, by norm_num⟩)).2 (by simp [exBarsA])

/-- C9 counterexample: on the strictly falling 15-row window the mean loss
is 1 (nonzero) and the mean gain is 0, so the claimed formula
`100 - 100/(1 + gain/loss)` gives 0, yet the code returns the flat
fallback 50, because `rs = 0` also triggers the 50 branch
(src/predict.py lines 116-117).  The last conjunct ties `rsi14` to the
`rsi_14` field of the feature vector. -/
theorem rsi14_formula_counterexample :
    rsiCloses15.length = 15 ∧
    rsi14 rsiCloses15 = 50 ∧
    rsiLoss rsiCloses15 ≠ 0 ∧
    100 - 100 / (1 + rsiGain rsiCloses15 / rsiLoss rsiCloses15) = 0 ∧
    (50 : ℚ) ≠ 0 ∧
    (calc_features_safe (fun _ => 0) exBarsA).map FeatureVector.rsi_14 =
      some (rsi14 (exBarsA.map Bar.close)) := by
  have hdiff : seriesDiff rsiCloses15 =
      [-1, -1, -1, -1, -1, -1, -1, -1, -1, -1, -1, -1, -1, -1] := by
    rw [rsiCloses15, seriesDiff]
    norm_num
  have hlast : lastN 14 (seriesDiff rsiCloses15) =
      [-1, -1, -1, -1, -1, -1, -1, -1, -1, -1, -1, -1, -1, -1] := by
    rw [hdiff, lastN]
    norm_num
  have hgain : rsiGain rsiCloses15 = 0 := by
    rw [rsiGain, hlast]
    norm_num [seriesMean]
  have hloss : rsiLoss rsiCloses15 = 1 := by
    rw [rsiLoss, hlast]
    norm_num [seriesMean]
  have h15 : (15 : ℕ) ≤ rsiCloses15.length := by rw [rsiCloses15]; norm_num
  refine ⟨by rw [rsiCloses15]; norm_num, ?_, by rw [hloss]; norm_num,
    by rw [hgain, hloss]; norm_num, by norm_num, rfl⟩
  have hrs : (if rsiLoss rsiCloses15 ≠ 0 then
      rsiGain rsiCloses15 / rsiLoss rsiCloses15 else 0) = 0 := by
    rw [if_pos (by rw [hloss]; norm_num), hgain, zero_div]
  simp only [rsi14]
  rw [if_pos h15, hrs, if_neg (by simp)]

/-- C9 amended: for every window of at least 15 rows, `rsi_14` equals
`100 - 100/(1 + gain/loss)` whenever **both** the mean loss and the mean
gain are nonzero, and equals the flat fallback 50 whenever the mean loss
is zero **or** the mean gain is zero (src/predict.py lines 112-119). -/
theorem rsi14_gain_loss_cases (close : List ℚ) (h15 : 15 ≤ close.length) :
    (rsiLoss close ≠ 0 → rsiGain close ≠ 0 →
      rsi14 close = 100 - 100 / (1 + rsiGain close / rsiLoss close)) ∧
    (rsiLoss close = 0 ∨ rsiGain close = 0 → rsi14 close = 50) := by
  constructor
  · intro hl hg
    have hrs : (if rsiLoss close ≠ 0 then rsiGain close / rsiLoss close else 0) =
        rsiGain close / rsiLoss close := if_pos hl
    simp only [rsi14]
    rw [if_pos h15, hrs, if_pos (div_ne_zero hg hl)]
  · intro h
    have hrs : (if rsiLoss close ≠ 0 then rsiGain close / rsiLoss close else 0) = 0 := by
      rcases h with hl | hg
      · exact if_neg (fun hne => hne hl)
      · by_cases hl : rsiLoss close = 0
        · exact if_neg (fun hne => hne hl)
        · rw [if_pos hl, hg, zero_div]
    simp only [rsi14]
    rw [if_pos h15, hrs, if_neg (by simp)]

/-- Witness for C9's amended statement: the alternating 16-row window has
nonzero mean gain and loss and takes the formula branch, while the falling
15-row window has zero mean gain and takes the 50 branch. -/
theorem rsi14_gain_loss_cases_witness :
    rsi14 rsiCloses16 =
      100 - 100 / (1 + rsiGain rsiCloses16 / rsiLoss rsiCloses16) ∧
    rsi14 rsiCloses15 = 50 := by
  have hdiff16 : seriesDiff rsiCloses16 =
      [1, -1, 1, -1, 1, -1, 1, -1, 1, -1, 1, -1, 1, -1, 1] := by
    rw [rsiCloses16, seriesDiff]
    norm_num
  have hlast16 : lastN 14 (seriesDiff rsiCloses16) =
      [-1, 1, -1, 1, -1, 1, -1, 1, -1, 1, -1, 1, -1, 1] := by
    rw [hdiff16, lastN]
    norm_num
  have hgain16 : rsiGain rsiCloses16 = 1/2 := by
    rw [rsiGain, hlast16]
    norm_num [seriesMean]
  have hloss16 : rsiLoss rsiCloses16 = 1/2 := by
    rw [rsiLoss, hlast16]
    norm_num [seriesMean]
  have hdiff15 : seriesDiff rsiCloses15 =
      [-1, -1, -1, -1, -1, -1, -1, -1, -1, -1, -1, -1, -1, -1] := by
    rw [rsiCloses15, seriesDiff]
    norm_num
  have hgain15 : rsiGain rsiCloses15 = 0 := by
    rw [rsiGain, hdiff15, lastN]
    norm_num [seriesMean]
  constructor
  · exact (rsi14_gain_loss_cases rsiCloses16 (by rw [rsiCloses16]; norm_num)).1
      (by rw [hloss16]; norm_num) (by rw [hgain16]; norm_num)
  · exact (rsi14_gain_loss_cases rsiCloses15 (by rw [rsiCloses15]; norm_num)).2
      (Or.inr hgain15)

end StockBackend
